import Mathlib

/-!
Verification of `toolbox/model_check.py`: the readiness registry
(`_TRAINED_ATTRS`, `_find_required_attr`), the readiness gate
(`check_model_ready`), the exception wrapper (`catch`) and the
nested-mapping flattener (`flatten_dict`), shallowly embedded in Lean.

Python objects are modelled by their observable features used by the code:
the runtime type name (`type(model).__name__`), the set of classes the
object is an instance of (`isinstance` over the full class ancestry), and
the set of attribute names present (`hasattr`).  Python values returned by
wrapped functions are modelled by `PyVal`, whose `none` constructor is
Python's `None`.
-/

/-- A Python value, as far as the gate and the wrappers observe it.
`PyVal.none` is Python's `None`. -/
inductive PyVal where
  | none
  | bool (b : Bool)
  | int (n : Int)
  | str (s : String)
deriving DecidableEq, Repr

/-- A Python object as the gate observes it: its type's `__name__`, the
classes it is an instance of (the whole ancestry, so `isinstance` subtype
matches are membership tests), and the attribute names present on it. -/
structure Obj where
  typeName : String
  classes : List String
  attrs : List String
deriving DecidableEq, Repr

/-- `isinstance(o, cls)`: membership of `cls` in the object's ancestry. -/
def pyIsinstance (o : Obj) (cls : String) : Bool :=
  o.classes.contains cls

/-- `hasattr(o, a)`. -/
def pyHasattr (o : Obj) (a : String) : Bool :=
  o.attrs.contains a

/-- The registry `_TRAINED_ATTRS` of `model_check.py` lines 49-55: an
ordered mapping from estimator class to the attribute that exists after
fitting, in the source's insertion order. -/
def _TRAINED_ATTRS : List (String × String) :=
  [("LogisticRegression", "coef_"),
   ("RandomForestClassifier", "feature_importances_"),
   ("DecisionTreeClassifier", "tree_"),
   ("SVC", "support_"),
   ("KNeighborsClassifier", "_fit_X")]

/-- The `for cls, attr in _TRAINED_ATTRS.items()` loop of
`_find_required_attr` (lines 64-67), over an arbitrary entry list. -/
def findLoop (m : Obj) : List (String × String) → Option String
  | [] => Option.none
  | (cls, attr) :: rest =>
      if pyIsinstance m cls then Option.some attr else findLoop m rest

/-- `_find_required_attr` (lines 58-67): first registry entry the object is
an instance of, else `None`. -/
def _find_required_attr (m : Obj) : Option String :=
  findLoop m _TRAINED_ATTRS

/-- ASCII apostrophe, kept out of string literals. -/
def sQuote : String := String.mk [Char.ofNat 39]

/-- Diagnostic of line 82. -/
def notEstimatorMsg : String :=
  "[❌] Provided object is *not* a scikit-learn estimator → aborting."

/-- Diagnostic of lines 87-90, interpolating `type(model).__name__` and the
missing attribute. -/
def notFittedMsg (typeName attr : String) : String :=
  "[❌] Model of type " ++ typeName ++ " does not have the required attribute "
    ++ sQuote ++ attr ++ sQuote ++ ".  Likely not fitted."

/-- Observable outcome of one call to the gated function: the returned
value, the invocations of the wrapped function (each with the exact
arguments passed), and the diagnostics printed. -/
structure GateResult where
  ret : PyVal
  calls : List (Obj × List PyVal × List (String × PyVal))
  diags : List String
deriving DecidableEq, Repr

/-- The `wrapper` produced by `check_model_ready` (lines 80-93), applied to
a wrapped function `f` and the call's arguments.  `f` takes the leading
model plus positional and keyword arguments.  Line 86's condition
`required_attr and not hasattr(model, required_attr)` tests Python
truthiness of the string, hence the `attr != ""` conjunct. -/
def check_model_ready (f : Obj → List PyVal → List (String × PyVal) → PyVal)
    (model : Obj) (args : List PyVal) (kwargs : List (String × PyVal)) :
    GateResult :=
  if !(pyIsinstance model "BaseEstimator") then
    { ret := PyVal.none, calls := [], diags := [notEstimatorMsg] }
  else
    match _find_required_attr model with
    | Option.some attr =>
        if attr != "" && !(pyHasattr model attr) then
          { ret := PyVal.none, calls := [],
            diags := [notFittedMsg model.typeName attr] }
        else
          { ret := f model args kwargs, calls := [(model, args, kwargs)],
            diags := [] }
    | Option.none =>
        { ret := f model args kwargs, calls := [(model, args, kwargs)],
          diags := [] }

/-! ### Concrete objects used by witnesses and counterexamples -/

/-- An unfitted `LogisticRegression` instance. -/
def oUnfitLR : Obj :=
  { typeName := "LogisticRegression",
    classes := ["LogisticRegression", "LinearClassifierMixin", "BaseEstimator"],
    attrs := ["C", "max_iter"] }

/-- A fitted `LogisticRegression` instance (carries `coef_`). -/
def oFitLR : Obj :=
  { typeName := "LogisticRegression",
    classes := ["LogisticRegression", "LinearClassifierMixin", "BaseEstimator"],
    attrs := ["C", "max_iter", "coef_", "intercept_"] }

/-- An object that is not a scikit-learn estimator at all. -/
def oNotEstimator : Obj :=
  { typeName := "int", classes := ["int", "object"], attrs := [] }

/-- A `BaseEstimator` subclass instance of a kind absent from the registry. -/
def oUnknownKind : Obj :=
  { typeName := "GaussianNB", classes := ["GaussianNB", "BaseEstimator"],
    attrs := ["var_smoothing"] }

/-! ### The `catch` decorator (lines 111-120)

A fallible wrapped call is modelled as returning `Except String PyVal`:
`Except.error e` is the call raising an exception whose message is `e`.
The wrapper of `catch` returns the value together with the diagnostics it
prints; its return type has no error channel, mirroring that every branch
of the Python wrapper returns normally. -/

/-- Diagnostic of line 118, interpolating `func.__name__` and the
exception message. -/
def catchMsg (fname e : String) : String :=
  "[⚠️  Caught exception in " ++ fname ++ "]: " ++ e

/-- The `wrapper` produced by `catch` (lines 113-119): delegate; on an
exception print the diagnostic and return `None`. -/
def catch_wrapper
    (f : List PyVal → List (String × PyVal) → Except String PyVal)
    (fname : String) (args : List PyVal) (kwargs : List (String × PyVal)) :
    PyVal × List String :=
  match f args kwargs with
  | Except.ok r => (r, [])
  | Except.error e => (PyVal.none, [catchMsg fname e])

/-! ### `flatten_dict` (lines 132-141), structural model

A Python value stored in a nested dict is either a non-dict leaf or a
nested dict; dicts are association lists in insertion order with the
unique-key invariant holding for real Python dicts.  `dict(items)` on a
possibly duplicated item list keeps each key at its first occurrence with
its last value, modelled by `dictOfItems`. -/

/-- A value inside a nested dictionary: a non-dict leaf or a nested dict
(`isinstance(v, dict)` discriminates). -/
inductive NVal where
  | leaf (v : PyVal)
  | dict (entries : List (String × NVal))

/-- Line 136: `new_key = f"{parent_key}{sep}{k}" if parent_key else k`
(Python string truthiness: the empty parent key selects `k`). -/
def joinKey (parent_key sep k : String) : String :=
  if parent_key = "" then k else parent_key ++ sep ++ k

/-- One `d[k] = v` assignment on a dict: update in place if the key is
present, else append. -/
def dictInsert {α : Type} (d : List (String × α)) (k : String) (v : α) :
    List (String × α) :=
  if d.any (fun p => p.1 == k) then
    d.map (fun p => if p.1 == k then (k, v) else p)
  else d ++ [(k, v)]

/-- `dict(items)`: left fold of assignments into an empty dict, so a
duplicated key keeps its first position and its last value. -/
def dictOfItems {α : Type} (items : List (String × α)) :
    List (String × α) :=
  items.foldl (fun d p => dictInsert d p.1 p.2) []

/-- The `items` list built by the loop of lines 134-140: leaves append
`(new_key, v)`, nested dicts extend with the items of the recursive
`flatten_dict` call (which are the deduplicated `dict(items)` of the
sub-flattening). -/
def flattenItems : List (String × NVal) → String → String →
    List (String × PyVal)
  | [], _, _ => []
  | (k, NVal.leaf v) :: rest, parent_key, sep =>
      (joinKey parent_key sep k, v) :: flattenItems rest parent_key sep
  | (k, NVal.dict sub) :: rest, parent_key, sep =>
      dictOfItems (flattenItems sub (joinKey parent_key sep k) sep)
        ++ flattenItems rest parent_key sep

/-- `flatten_dict` (lines 132-141): `dict(items)` of the loop's items. -/
def flatten_dict (d : List (String × NVal)) (parent_key : String := "")
    (sep : String := ".") : List (String × PyVal) :=
  dictOfItems (flattenItems d parent_key sep)

/-- Modelled from the spec's words for comparison with `flatten_dict`: the
separator-joined path of every non-dict leaf, with that leaf's value, in
traversal order and with no deduplication. -/
def specLeafPaths : List (String × NVal) → String → String →
    List (String × PyVal)
  | [], _, _ => []
  | (k, NVal.leaf v) :: rest, parent_key, sep =>
      (joinKey parent_key sep k, v) :: specLeafPaths rest parent_key sep
  | (k, NVal.dict sub) :: rest, parent_key, sep =>
      specLeafPaths sub (joinKey parent_key sep k) sep
        ++ specLeafPaths rest parent_key sep

/-- The colliding input for C7: the flat key `"a.b"` and the nested path
`a` then `b` join to the same flattened key. -/
def dColl : List (String × NVal) :=
  [("a.b", NVal.leaf (PyVal.int 1)),
   ("a", NVal.dict [("b", NVal.leaf (PyVal.int 2))])]

/-! ### `flatten_dict`, heap model (for the frame property)

To talk about mutation, dict objects live in an explicit store and nested
dicts are references into it.  `flatten_dict` only reads its argument and
allocates the fresh `dict(items)` it returns, so a run maps an input store
to an extension of it.  Recursion over references needs fuel, since the
heap representation cannot rule out reference cycles; `Option.none` is a
run that exhausts its fuel or follows a dangling reference. -/

/-- A stored Python value: a non-dict primitive or a reference to a dict
object in the store. -/
inductive HVal where
  | prim (v : PyVal)
  | dref (r : Nat)
deriving DecidableEq, Repr

/-- A dict object: its entries in insertion order. -/
abbrev HDict := List (String × HVal)

/-- The heap of dict objects; a reference is an index. -/
abbrev Store := List HDict

mutual

/-- `flatten_dict` (lines 132-141) on the store: read the entries of dict
`r`, run the loop, allocate `dict(items)` and return its reference. -/
def flattenH : Nat → Store → Nat → String → String → Option (Store × Nat)
  | 0, _, _, _, _ => Option.none
  | Nat.succ fuel', store, r, parent_key, sep =>
    match store[r]? with
    | Option.none => Option.none
    | Option.some entries =>
      match flattenHLoop fuel' store entries parent_key sep with
      | Option.none => Option.none
      | Option.some (store1, items) =>
        Option.some (store1 ++ [dictOfItems items], store1.length)
termination_by fuel _ _ _ _ => (fuel, 0)

/-- The loop of lines 134-140 on the store: leaves append one item,
dict-valued entries extend with the items of the recursively flattened and
freshly allocated sub-dict. -/
def flattenHLoop : Nat → Store → HDict → String → String →
    Option (Store × List (String × HVal))
  | _, store, [], _, _ => Option.some (store, [])
  | fuel, store, (k, HVal.prim p) :: rest, parent_key, sep =>
    match flattenHLoop fuel store rest parent_key sep with
    | Option.none => Option.none
    | Option.some (store1, items) =>
      Option.some (store1, (joinKey parent_key sep k, HVal.prim p) :: items)
  | fuel, store, (k, HVal.dref r2) :: rest, parent_key, sep =>
    match flattenH fuel store r2 (joinKey parent_key sep k) sep with
    | Option.none => Option.none
    | Option.some (store1, rres) =>
      match store1[rres]? with
      | Option.none => Option.none
      | Option.some inner =>
        match flattenHLoop fuel store1 rest parent_key sep with
        | Option.none => Option.none
        | Option.some (store2, items2) =>
          Option.some (store2, inner ++ items2)
termination_by fuel _ entries _ _ => (fuel, entries.length + 1)

end

/-- The run only appended freshly allocated dicts to the store. -/
def storeExtends (s s' : Store) : Prop := ∃ t, s' = s ++ t

/-- The two-dict input store for the C10 witness: dict 0 is
`{"a": <dict 1>}` and dict 1 is `{"b": 2}`. -/
def store0 : Store :=
  [[("a", HVal.dref 1)], [("b", HVal.prim (PyVal.int 2))]]

/-- The store after flattening dict 0 of `store0`: both original dicts are
intact and two fresh dicts were appended (the flattened sub-dict and the
returned result, reference 3). -/
def store0' : Store :=
  store0 ++ [[("a.b", HVal.prim (PyVal.int 2))],
    [("a.b", HVal.prim (PyVal.int 2))]]

/-! ### Helper lemmas -/

/-! ### Registry lemmas -/

lemma findLoop_some_mem_snd {m : Obj} {L : List (String × String)} {a : String}
    (h : findLoop m L = Option.some a) : a ∈ L.map Prod.snd := by
  induction L with
  | nil => simp [findLoop] at h
  | cons p rest ih =>
    obtain ⟨cls, attr⟩ := p
    by_cases hc : pyIsinstance m cls
    · simp [findLoop, hc] at h
      simp [h]
    · simp [findLoop, hc] at h
      simpa using Or.inr (ih h)

lemma required_attr_ne_empty {m : Obj} {a : String}
    (h : _find_required_attr m = Option.some a) : a ≠ "" := by
  have hm : a ∈ _TRAINED_ATTRS.map Prod.snd := findLoop_some_mem_snd h
  simp [_TRAINED_ATTRS] at hm
  rcases hm with rfl | rfl | rfl | rfl | rfl <;> decide

/-! ### First-match characterization of the registry lookup -/

lemma findLoop_eq_none_iff {m : Obj} {L : List (String × String)} :
    findLoop m L = Option.none ↔
      ∀ p ∈ L, pyIsinstance m p.1 = false := by
  induction L with
  | nil => simp [findLoop]
  | cons q rest ih =>
    obtain ⟨cls, attr⟩ := q
    by_cases hc : pyIsinstance m cls
    · simp [findLoop, hc]
    · simp [findLoop, hc, ih]

lemma findLoop_eq_some_iff {m : Obj} {L : List (String × String)} {a : String} :
    findLoop m L = Option.some a ↔
      ∃ i, (∃ cls, L.get? i = Option.some (cls, a) ∧
              pyIsinstance m cls = true) ∧
        ∀ j, j < i → ∀ cls' a', L.get? j = Option.some (cls', a') →
          pyIsinstance m cls' = false := by
  induction L generalizing a with
  | nil => simp [findLoop]
  | cons q rest ih =>
    obtain ⟨cls, attr⟩ := q
    by_cases hc : pyIsinstance m cls = true
    · simp only [findLoop, hc, if_true, Option.some.injEq]
      constructor
      · rintro rfl
        refine ⟨0, ⟨cls, by simp, hc⟩, ?_⟩
        intro j hj
        exact absurd hj (Nat.not_lt_zero j)
      · rintro ⟨i, ⟨cls', hget, hinst⟩, hfirst⟩
        cases i with
        | zero =>
          simp only [List.get?_cons_zero, Option.some.injEq,
            Prod.mk.injEq] at hget
          exact hget.2
        | succ i' =>
          have h0 := hfirst 0 (Nat.succ_pos i') cls attr (by simp)
          simp [h0] at hc
    · have hcf : pyIsinstance m cls = false := by simpa using hc
      simp only [findLoop, hcf, Bool.false_eq_true, if_false, ih]
      constructor
      · rintro ⟨i, ⟨cls', hget, hinst⟩, hfirst⟩
        refine ⟨i + 1, ⟨cls', by simpa using hget, hinst⟩, ?_⟩
        intro j hj cls'' a'' hget''
        cases j with
        | zero =>
          simp only [List.get?_cons_zero, Option.some.injEq,
            Prod.mk.injEq] at hget''
          rw [← hget''.1]
          exact hcf
        | succ j' =>
          exact hfirst j' (by omega) cls'' a'' (by simpa using hget'')
      · rintro ⟨i, ⟨cls', hget, hinst⟩, hfirst⟩
        cases i with
        | zero =>
          simp only [List.get?_cons_zero, Option.some.injEq,
            Prod.mk.injEq] at hget
          rw [← hget.1] at hinst
          simp [hinst] at hcf
        | succ i' =>
          refine ⟨i', ⟨cls', by simpa using hget, hinst⟩, ?_⟩
          intro j hj cls'' a'' hget''
          exact hfirst (j + 1) (by omega) cls'' a'' (by simpa using hget'')

lemma dictInsert_of_not_mem {α : Type} (d : List (String × α)) (k : String)
    (v : α) (hk : ¬ k ∈ d.map Prod.fst) :
    dictInsert d k v = d ++ [(k, v)] := by
  have hany : d.any (fun p => p.1 == k) = false := by
    rw [List.any_eq_false]
    intro p hp
    simp only [beq_iff_eq]
    intro he
    exact hk (he ▸ List.mem_map_of_mem Prod.fst hp)
  simp [dictInsert, hany]

lemma foldl_dictInsert_of_nodup {α : Type} :
    ∀ (items acc : List (String × α)),
      ((acc ++ items).map Prod.fst).Nodup →
      List.foldl (fun d p => dictInsert d p.1 p.2) acc items =
        acc ++ items := by
  intro items
  induction items with
  | nil => intro acc _; simp
  | cons p rest ih =>
    intro acc h
    obtain ⟨k, v⟩ := p
    have hk : ¬ k ∈ acc.map Prod.fst := by
      rw [List.map_append, List.nodup_append] at h
      intro hmem
      exact h.2.2 hmem (by simp)
    rw [List.foldl_cons]
    show List.foldl _ (dictInsert acc k v) rest = _
    rw [dictInsert_of_not_mem acc k v hk]
    have h' : (((acc ++ [(k, v)]) ++ rest).map Prod.fst).Nodup := by
      simpa [List.append_assoc] using h
    rw [ih (acc ++ [(k, v)]) h']
    simp

lemma dictOfItems_of_nodup {α : Type} (items : List (String × α))
    (h : (items.map Prod.fst).Nodup) : dictOfItems items = items := by
  have := foldl_dictInsert_of_nodup items [] (by simpa using h)
  simpa [dictOfItems] using this

lemma flattenItems_eq_specLeafPaths :
    ∀ (d : List (String × NVal)) (parent_key sep : String),
      ((specLeafPaths d parent_key sep).map Prod.fst).Nodup →
      flattenItems d parent_key sep = specLeafPaths d parent_key sep := by
  intro d parent_key sep
  induction d, parent_key, sep using flattenItems.induct with
  | case1 _ _ => intro _; rw [flattenItems, specLeafPaths]
  | case2 k v rest parent_key sep ih =>
    intro h
    rw [flattenItems, specLeafPaths]
    rw [specLeafPaths] at h
    simp only [List.map_cons, List.nodup_cons] at h
    rw [ih h.2]
  | case3 k sub rest parent_key sep ih1 ih2 =>
    intro h
    rw [flattenItems, specLeafPaths]
    rw [specLeafPaths] at h
    rw [List.map_append, List.nodup_append] at h
    rw [ih1 h.1, ih2 h.2.1, dictOfItems_of_nodup _ h.1]

lemma flattenItems_leaf_map (s : String) :
    ∀ d : List (String × PyVal),
      flattenItems (d.map (fun p => (p.1, NVal.leaf p.2))) "" s = d := by
  intro d
  induction d with
  | nil => rw [List.map_nil, flattenItems]
  | cons p rest ih =>
    obtain ⟨k, v⟩ := p
    rw [List.map_cons, flattenItems, ih]
    simp [joinKey]

lemma storeExtends_refl (s : Store) : storeExtends s s := ⟨[], by simp⟩

lemma storeExtends_trans {s t u : Store} (h1 : storeExtends s t)
    (h2 : storeExtends t u) : storeExtends s u := by
  obtain ⟨a, rfl⟩ := h1
  obtain ⟨b, rfl⟩ := h2
  exact ⟨a ++ b, by simp⟩

lemma storeExtends_snoc (s : Store) (d : HDict) :
    storeExtends s (s ++ [d]) := ⟨[d], rfl⟩

lemma storeExtends_get? {s s' : Store} (h : storeExtends s s') {i : Nat}
    (hi : i < s.length) : s'.get? i = s.get? i := by
  obtain ⟨t, rfl⟩ := h
  rw [List.get?_eq_getElem?, List.get?_eq_getElem?]
  exact List.getElem?_append_left hi

lemma storeExtends_length {s s' : Store} (h : storeExtends s s') :
    s.length ≤ s'.length := by
  obtain ⟨t, rfl⟩ := h
  simp

lemma flattenHLoop_frame (fuel : Nat)
    (ihH : ∀ store r pk sp store' res,
      flattenH fuel store r pk sp = Option.some (store', res) →
      storeExtends store store') :
    ∀ (entries : HDict) (store : Store) (pk sp : String)
      (store' : Store) (items : List (String × HVal)),
      flattenHLoop fuel store entries pk sp = Option.some (store', items) →
      storeExtends store store' := by
  intro entries
  induction entries with
  | nil =>
    intro store pk sp store' items h
    rw [flattenHLoop] at h
    obtain ⟨rfl, rfl⟩ :
        store = store' ∧ ([] : List (String × HVal)) = items := by
      simpa using h
    exact storeExtends_refl store
  | cons p rest ih =>
    intro store pk sp store' items h
    obtain ⟨k, v⟩ := p
    cases v with
    | prim pv =>
      rw [flattenHLoop] at h
      cases hrec : flattenHLoop fuel store rest pk sp with
      | none => simp [hrec] at h
      | some pair =>
        obtain ⟨store1, items1⟩ := pair
        simp only [hrec] at h
        obtain ⟨rfl, -⟩ :
            store1 = store' ∧
              (joinKey pk sp k, HVal.prim pv) :: items1 = items := by
          simpa using h
        exact ih store pk sp _ items1 hrec
    | dref r2 =>
      rw [flattenHLoop] at h
      cases hH : flattenH fuel store r2 (joinKey pk sp k) sp with
      | none => simp [hH] at h
      | some pair =>
        obtain ⟨store1, rres⟩ := pair
        simp only [hH] at h
        cases hin : store1[rres]? with
        | none => simp [hin] at h
        | some inner =>
          simp only [hin] at h
          cases hrec : flattenHLoop fuel store1 rest pk sp with
          | none => simp [hrec] at h
          | some pair2 =>
            obtain ⟨store2, items2⟩ := pair2
            simp only [hrec] at h
            obtain ⟨rfl, -⟩ :
                store2 = store' ∧ inner ++ items2 = items := by
              simpa using h
            exact storeExtends_trans
              (ihH store r2 (joinKey pk sp k) sp store1 rres hH)
              (ih store1 pk sp _ items2 hrec)

lemma flattenH_frame :
    ∀ (fuel : Nat) (store : Store) (r : Nat) (pk sp : String)
      (store' : Store) (res : Nat),
      flattenH fuel store r pk sp = Option.some (store', res) →
      storeExtends store store' ∧ store.length ≤ res := by
  intro fuel
  induction fuel with
  | zero =>
    intro store r pk sp store' res h
    rw [flattenH] at h
    simp at h
  | succ f ih =>
    intro store r pk sp store' res h
    rw [flattenH] at h
    cases hget : store[r]? with
    | none => simp [hget] at h
    | some entries =>
      simp only [hget] at h
      cases hloop : flattenHLoop f store entries pk sp with
      | none => simp [hloop] at h
      | some pair =>
        obtain ⟨store1, items⟩ := pair
        simp only [hloop] at h
        obtain ⟨rfl, rfl⟩ :
            store1 ++ [dictOfItems items] = store' ∧
              store1.length = res := by
          simpa using h
        have hext : storeExtends store store1 :=
          flattenHLoop_frame f
            (fun st rr ppk ssp st' rs hh => (ih st rr ppk ssp st' rs hh).1)
            entries store pk sp store1 items hloop
        exact ⟨storeExtends_trans hext (storeExtends_snoc store1 _),
          storeExtends_length hext⟩

/-! ### Claims -/

/-- C1: for every object that is a `BaseEstimator` instance of a registered
kind (the registry lookup finds its evidence attribute) but lacks that
attribute, the gated call returns the `None` sentinel, prints exactly the
diagnostic naming the object's type name and the missing attribute, and the
wrapped function is never invoked. -/
theorem c1_unfitted_known_kind_rejected
    (f : Obj → List PyVal → List (String × PyVal) → PyVal)
    (model : Obj) (args : List PyVal) (kwargs : List (String × PyVal))
    (attr : String)
    (hbase : pyIsinstance model "BaseEstimator" = true)
    (hfind : _find_required_attr model = Option.some attr)
    (hmiss : pyHasattr model attr = false) :
    check_model_ready f model args kwargs =
      { ret := PyVal.none, calls := [],
        diags := [notFittedMsg model.typeName attr] } := by
  have hne : attr ≠ "" := required_attr_ne_empty hfind
  simp [check_model_ready, hbase, hfind, hmiss, hne]

theorem c1_witness :
    pyIsinstance oUnfitLR "BaseEstimator" = true ∧
    _find_required_attr oUnfitLR = Option.some "coef_" ∧
    pyHasattr oUnfitLR "coef_" = false ∧
    check_model_ready (fun _ _ _ => PyVal.int 0) oUnfitLR [] [] =
      { ret := PyVal.none, calls := [],
        diags := [notFittedMsg "LogisticRegression" "coef_"] } :=
  ⟨by decide, by decide, by decide,
   c1_unfitted_known_kind_rejected (fun _ _ _ => PyVal.int 0) oUnfitLR [] []
     "coef_" (by decide) (by decide) (by decide)⟩

/-- C2: for every first argument that is not a `BaseEstimator` instance,
the gated call returns the `None` sentinel, prints exactly the rejection
diagnostic, and the wrapped function is never invoked. -/
theorem c2_not_estimator_rejected
    (f : Obj → List PyVal → List (String × PyVal) → PyVal)
    (model : Obj) (args : List PyVal) (kwargs : List (String × PyVal))
    (hbase : pyIsinstance model "BaseEstimator" = false) :
    check_model_ready f model args kwargs =
      { ret := PyVal.none, calls := [], diags := [notEstimatorMsg] } := by
  simp [check_model_ready, hbase]

theorem c2_witness :
    pyIsinstance oNotEstimator "BaseEstimator" = false ∧
    check_model_ready (fun _ _ _ => PyVal.int 7) oNotEstimator
      [PyVal.int 1] [] =
      { ret := PyVal.none, calls := [], diags := [notEstimatorMsg] } :=
  ⟨by decide,
   c2_not_estimator_rejected (fun _ _ _ => PyVal.int 7) oNotEstimator
     [PyVal.int 1] [] (by decide)⟩

/-- C3: for every `BaseEstimator` instance of a registered kind that
carries its evidence attribute, the gated call invokes the wrapped function
exactly once, with the leading object and all positional and keyword
arguments unchanged, and returns its result verbatim, with no diagnostic. -/
theorem c3_fitted_known_kind_delegates
    (f : Obj → List PyVal → List (String × PyVal) → PyVal)
    (model : Obj) (args : List PyVal) (kwargs : List (String × PyVal))
    (attr : String)
    (hbase : pyIsinstance model "BaseEstimator" = true)
    (hfind : _find_required_attr model = Option.some attr)
    (hhas : pyHasattr model attr = true) :
    check_model_ready f model args kwargs =
      { ret := f model args kwargs, calls := [(model, args, kwargs)],
        diags := [] } := by
  simp [check_model_ready, hbase, hfind, hhas]

theorem c3_witness :
    pyIsinstance oFitLR "BaseEstimator" = true ∧
    _find_required_attr oFitLR = Option.some "coef_" ∧
    pyHasattr oFitLR "coef_" = true ∧
    check_model_ready (fun _ _ _ => PyVal.str "scored") oFitLR
      [PyVal.int 5] [("verbose", PyVal.bool true)] =
      { ret := PyVal.str "scored",
        calls := [(oFitLR, [PyVal.int 5], [("verbose", PyVal.bool true)])],
        diags := [] } :=
  ⟨by decide, by decide, by decide,
   c3_fitted_known_kind_delegates (fun _ _ _ => PyVal.str "scored") oFitLR
     [PyVal.int 5] [("verbose", PyVal.bool true)] "coef_"
     (by decide) (by decide) (by decide)⟩

/-- C4: for every `BaseEstimator` instance whose kind matches no registry
entry (the lookup returns `None`), the gated call invokes the wrapped
function with the original arguments and returns its result: unknown kinds
pass through unchecked. -/
theorem c4_unknown_kind_passes_through
    (f : Obj → List PyVal → List (String × PyVal) → PyVal)
    (model : Obj) (args : List PyVal) (kwargs : List (String × PyVal))
    (hbase : pyIsinstance model "BaseEstimator" = true)
    (hfind : _find_required_attr model = Option.none) :
    check_model_ready f model args kwargs =
      { ret := f model args kwargs, calls := [(model, args, kwargs)],
        diags := [] } := by
  simp [check_model_ready, hbase, hfind]

theorem c4_witness :
    pyIsinstance oUnknownKind "BaseEstimator" = true ∧
    _find_required_attr oUnknownKind = Option.none ∧
    check_model_ready (fun _ _ _ => PyVal.bool false) oUnknownKind [] [] =
      { ret := PyVal.bool false, calls := [(oUnknownKind, [], [])],
        diags := [] } :=
  ⟨by decide, by decide,
   c4_unknown_kind_passes_through (fun _ _ _ => PyVal.bool false)
     oUnknownKind [] [] (by decide) (by decide)⟩

/-- C5: the registry lookup is exactly first-match over the registered
entries in registration order, with subtype matching.  It returns `None`
precisely when the object is an instance of no registered class, and it
returns `Some a` precisely when some entry at position `i` has an
`isinstance`-matching class with attribute `a` while every earlier entry
fails the `isinstance` test.  Being a total Lean function of the object
alone, it has no side effects and never fails. -/
theorem c5_lookup_first_match (m : Obj) :
    (_find_required_attr m = Option.none ↔
      ∀ p ∈ _TRAINED_ATTRS, pyIsinstance m p.1 = false) ∧
    (∀ a : String, _find_required_attr m = Option.some a ↔
      ∃ i, (∃ cls, _TRAINED_ATTRS.get? i = Option.some (cls, a) ∧
              pyIsinstance m cls = true) ∧
        ∀ j, j < i → ∀ cls' a',
          _TRAINED_ATTRS.get? j = Option.some (cls', a') →
          pyIsinstance m cls' = false) :=
  ⟨findLoop_eq_none_iff, fun _ => findLoop_eq_some_iff⟩

/-- C6 counterexample: the rejection sentinel is Python's `None`, and a
wrapped function may legitimately return `None`.  With the constant-`None`
wrapped function, a successful delegated call on a fitted model returns
exactly the same value as a rejection on an unfitted model, so the sentinel
is not distinct from every legitimate return value. -/
theorem c6_counterexample :
    (check_model_ready (fun _ _ _ => PyVal.none) oFitLR [] []).ret =
      (check_model_ready (fun _ _ _ => PyVal.none) oUnfitLR [] []).ret ∧
    (check_model_ready (fun _ _ _ => PyVal.none) oFitLR [] []).calls =
      [(oFitLR, [], [])] ∧
    (check_model_ready (fun _ _ _ => PyVal.none) oUnfitLR [] []).calls =
      [] := by
  refine ⟨?_, ?_, ?_⟩ <;> decide

/-- C6 (amended): the sentinel is `None`, so rejection is distinguishable
from success by the return value exactly for wrapped functions that never
return `None`: for such `f`, the gated call returns `None` iff the wrapped
function was never invoked. -/
theorem c6_sentinel_distinct_iff_f_avoids_none
    (f : Obj → List PyVal → List (String × PyVal) → PyVal)
    (model : Obj) (args : List PyVal) (kwargs : List (String × PyVal))
    (hf : ∀ m a k, f m a k ≠ PyVal.none) :
    ((check_model_ready f model args kwargs).ret = PyVal.none ↔
      (check_model_ready f model args kwargs).calls = []) := by
  by_cases hbase : pyIsinstance model "BaseEstimator" = true
  · cases hfind : _find_required_attr model with
    | some attr =>
      by_cases hrej : (attr != "" && !(pyHasattr model attr)) = true
      · simp [check_model_ready, hbase, hfind, hrej]
      · simp [check_model_ready, hbase, hfind, hrej, hf]
    | none => simp [check_model_ready, hbase, hfind, hf]
  · have hb : pyIsinstance model "BaseEstimator" = false := by
      simpa using hbase
    simp [check_model_ready, hb]

theorem c6_witness :
    (∀ (m : Obj) (a : List PyVal) (k : List (String × PyVal)),
      (fun (_ : Obj) (_ : List PyVal) (_ : List (String × PyVal)) =>
        PyVal.int 3) m a k ≠ PyVal.none) ∧
    ((check_model_ready (fun _ _ _ => PyVal.int 3) oFitLR [] []).ret =
        PyVal.none ↔
      (check_model_ready (fun _ _ _ => PyVal.int 3) oFitLR [] []).calls =
        []) :=
  ⟨fun _ _ _ => by simp,
   c6_sentinel_distinct_iff_f_avoids_none (fun _ _ _ => PyVal.int 3)
     oFitLR [] [] (fun _ _ _ => by simp)⟩

/-- C9: the `catch` wrapper invokes the wrapped call; when the call raises,
it prints the diagnostic carrying the exception's message and returns the
`None` empty result (it returns normally, never re-raising: its type has no
error channel); when the call returns normally, the wrapper returns its
result unchanged with no diagnostic. -/
theorem c9_catch_wrapper_contains
    (f : List PyVal → List (String × PyVal) → Except String PyVal)
    (fname : String) (args : List PyVal) (kwargs : List (String × PyVal)) :
    (∀ r, f args kwargs = Except.ok r →
      catch_wrapper f fname args kwargs = (r, [])) ∧
    (∀ e, f args kwargs = Except.error e →
      catch_wrapper f fname args kwargs = (PyVal.none, [catchMsg fname e])) := by
  constructor <;> intro x h <;> simp [catch_wrapper, h]

theorem c9_witness :
    (fun (_ : List PyVal) (_ : List (String × PyVal)) =>
        (Except.error "division by zero" : Except String PyVal)) [] [] =
      Except.error "division by zero" ∧
    catch_wrapper
      (fun _ _ => (Except.error "division by zero" : Except String PyVal))
      "risky" [] [] =
      (PyVal.none, [catchMsg "risky" "division by zero"]) :=
  ⟨rfl,
   (c9_catch_wrapper_contains
      (fun _ _ => (Except.error "division by zero" : Except String PyVal))
      "risky" [] []).2 "division by zero" rfl⟩

/-- C7 counterexample: in `{"a.b": 1, "a": {"b": 2}}` the leaf `1` has
joined path `"a.b"`, but the flattened output drops it (the later leaf `2`
overwrites the key in `dict(items)`), so the output values are not exactly
the leaves of the input. -/
theorem c7_counterexample :
    ("a.b", PyVal.int 1) ∈ specLeafPaths dColl "" "." ∧
    ¬ ("a.b", PyVal.int 1) ∈ flatten_dict dColl "" "." ∧
    flatten_dict dColl "" "." = [("a.b", PyVal.int 2)] := by
  refine ⟨?_, ?_, ?_⟩ <;>
    simp [dColl, flatten_dict, flattenItems, specLeafPaths, joinKey,
      dictOfItems, dictInsert]

/-- C7 (amended): whenever the separator-joined leaf paths of the input
are pairwise distinct (in particular whenever no key contains the
separator), the flattened output is exactly the list of (full joined path,
leaf value) pairs in traversal order, with unique keys; and the two
boundary examples hold: `{a: {b: {c: 1}}}` flattens to `{"a.b.c": 1}` and
`{a: {}}` flattens to `{}`. -/
theorem c7_flatten_output_is_leaf_paths :
    (∀ d : List (String × NVal),
      ((specLeafPaths d "" ".").map Prod.fst).Nodup →
      flatten_dict d "" "." = specLeafPaths d "" "." ∧
      ((flatten_dict d "" ".").map Prod.fst).Nodup) ∧
    flatten_dict [("a", NVal.dict [("b", NVal.dict
      [("c", NVal.leaf (PyVal.int 1))])])] "" "." =
      [("a.b.c", PyVal.int 1)] ∧
    flatten_dict [("a", NVal.dict [])] "" "." = [] := by
  refine ⟨?_, ?_, ?_⟩
  · intro d h
    have he : flatten_dict d "" "." = specLeafPaths d "" "." := by
      unfold flatten_dict
      rw [flattenItems_eq_specLeafPaths d "" "." h, dictOfItems_of_nodup _ h]
    exact ⟨he, he ▸ h⟩
  · simp [flatten_dict, flattenItems, joinKey, dictOfItems, dictInsert]
  · simp [flatten_dict, flattenItems, joinKey, dictOfItems, dictInsert]

theorem c7_witness :
    ((specLeafPaths [("x", NVal.dict [("y", NVal.leaf (PyVal.int 4))]),
        ("z", NVal.leaf (PyVal.bool true))] "" ".").map Prod.fst).Nodup ∧
    (flatten_dict [("x", NVal.dict [("y", NVal.leaf (PyVal.int 4))]),
        ("z", NVal.leaf (PyVal.bool true))] "" "." =
      specLeafPaths [("x", NVal.dict [("y", NVal.leaf (PyVal.int 4))]),
        ("z", NVal.leaf (PyVal.bool true))] "" "." ∧
     ((flatten_dict [("x", NVal.dict [("y", NVal.leaf (PyVal.int 4))]),
        ("z", NVal.leaf (PyVal.bool true))] "" ".").map Prod.fst).Nodup) :=
  ⟨by simp [specLeafPaths, joinKey],
   c7_flatten_output_is_leaf_paths.1 _ (by simp [specLeafPaths, joinKey])⟩

/-- C8: flattening an already-flat mapping (no value is a dict) returns a
mapping equal to the input. -/
theorem c8_flatten_idempotent_on_flat (d : List (String × PyVal))
    (h : (d.map Prod.fst).Nodup) :
    flatten_dict (d.map (fun p => (p.1, NVal.leaf p.2))) "" "." = d := by
  unfold flatten_dict
  rw [flattenItems_leaf_map "." d, dictOfItems_of_nodup d h]

theorem c8_witness :
    (([("a", PyVal.int 1), ("b", PyVal.str "x")].map
        (Prod.fst (β := PyVal))).Nodup) ∧
    flatten_dict ([("a", PyVal.int 1), ("b", PyVal.str "x")].map
        (fun p => (p.1, NVal.leaf p.2))) "" "." =
      [("a", PyVal.int 1), ("b", PyVal.str "x")] :=
  ⟨by decide,
   c8_flatten_idempotent_on_flat [("a", PyVal.int 1), ("b", PyVal.str "x")]
     (by decide)⟩

/-- C10: a terminating run of the heap-level `flatten_dict` leaves every
pre-existing dict object in the store untouched (same entries at every
pre-existing reference), and its result is a reference at or beyond the old
end of the store: a freshly built mapping, never the input or anything
nested in it. -/
theorem c10_flatten_does_not_mutate_input
    (fuel : Nat) (store : Store) (r : Nat) (parent_key sep : String)
    (store' : Store) (res : Nat)
    (h : flattenH fuel store r parent_key sep = Option.some (store', res)) :
    (∀ i, i < store.length → store'.get? i = store.get? i) ∧
    store.length ≤ store'.length ∧
    store.length ≤ res := by
  obtain ⟨hext, hres⟩ :=
    flattenH_frame fuel store r parent_key sep store' res h
  exact ⟨fun i hi => storeExtends_get? hext hi,
    storeExtends_length hext, hres⟩

theorem c10_witness :
    flattenH 3 store0 0 "" "." = Option.some (store0', 3) ∧
    ((∀ i, i < store0.length → store0'.get? i = store0.get? i) ∧
     store0.length ≤ store0'.length ∧
     store0.length ≤ 3) :=
  ⟨by simp [flattenH, flattenHLoop, store0, store0', joinKey,
      dictOfItems, dictInsert],
   c10_flatten_does_not_mutate_input 3 store0 0 "" "." store0' 3
     (by simp [flattenH, flattenHLoop, store0, store0', joinKey,
        dictOfItems, dictInsert])⟩
